import Mathlib

set_option maxRecDepth 100000

/-!
Verification of the LazyQuery schema-conversion core.

The TypeScript source under `src/` is shallowly embedded here.  Raw text is
modelled as a list of Unicode code points (`List Nat`); every regular
expression of the source is rendered as an explicit, deterministic scanner.
For each regex this is justified in a comment at the embedding site: the
character classes involved (word characters, whitespace, punctuation) are
pairwise disjoint, so the greedy JavaScript match never needs to backtrack
and the scanner below computes the same match.

Embedded components:
 * `PrismaParser`            (src/src/parsers/PrismaParser.ts)
 * `SqlToPrismaConverter`    (src/src/parsers/SqlToPrismaConverter.ts)
 * `JsonToPrismaConverter.mapJsonTypeToPrisma`
                             (src/client/src/parsers/JsonToPrismaConverter.ts)
 * `SchemaConverter`         (src/client/src/parsers/SchemaConverter.ts)
-/

/-- Code points of a Lean string literal; used to transcribe the source's
string literals into the `List Nat` representation. -/
def str (s : String) : List Nat := s.data.map Char.toNat

/-- JavaScript `\s` on the ASCII range: space, tab, newline, carriage
return, vertical tab, form feed. -/
def isSpaceCode (n : Nat) : Bool :=
  n = 32 || n = 9 || n = 10 || n = 13 || n = 11 || n = 12

/-- ASCII digit. -/
def isDigitCode (n : Nat) : Bool := 48 ≤ n && n ≤ 57

/-- ASCII uppercase letter. -/
def isUpperCode (n : Nat) : Bool := 65 ≤ n && n ≤ 90

/-- ASCII lowercase letter. -/
def isLowerCode (n : Nat) : Bool := 97 ≤ n && n ≤ 122

/-- ASCII letter. -/
def isAlphaCode (n : Nat) : Bool := isUpperCode n || isLowerCode n

/-- JavaScript `\w`: ASCII letter, digit or underscore. -/
def isWordCode (n : Nat) : Bool := isAlphaCode n || isDigitCode n || n = 95

/-- ASCII lowering of one code point (JavaScript `toLowerCase` on ASCII). -/
def lowerCode (n : Nat) : Nat := if isUpperCode n then n + 32 else n

/-- ASCII uppering of one code point (JavaScript `toUpperCase` on ASCII). -/
def upperCode (n : Nat) : Nat := if isLowerCode n then n - 32 else n

/-- Lowercase a whole string. -/
def lowerStr (s : List Nat) : List Nat := s.map lowerCode

/-- Uppercase a whole string. -/
def upperStr (s : List Nat) : List Nat := s.map upperCode

/-- `lpre pat s` holds when `pat` is a prefix of `s` (JS `startsWith`). -/
def lpre : List Nat → List Nat → Bool
  | [], _ => true
  | _ :: _, [] => false
  | p :: ps, c :: cs => p = c && lpre ps cs

/-- `lsuf pat s` holds when `pat` is a suffix of `s` (JS `endsWith`). -/
def lsuf (pat s : List Nat) : Bool := lpre pat.reverse s.reverse

/-- Case-insensitive prefix test. -/
def lpreCI (pat s : List Nat) : Bool := lpre (lowerStr pat) (lowerStr s)

/-- `containsSub s pat` is JS `s.includes(pat)`. -/
def containsSub : List Nat → List Nat → Bool
  | s, pat =>
    if lpre pat s then true
    else
      match s with
      | [] => false
      | _ :: cs => containsSub cs pat

/-- Case-insensitive substring test: JS `/pat/i.test(s)` for a plain literal. -/
def containsCI (s pat : List Nat) : Bool := containsSub (lowerStr s) (lowerStr pat)

/-- Index of the first occurrence of `pat` in `s` (JS `indexOf`). -/
def findSub : List Nat → List Nat → Option Nat
  | s, pat =>
    if lpre pat s then some 0
    else
      match s with
      | [] => none
      | _ :: cs => (findSub cs pat).map (· + 1)

/-- JS `s.split(d)` for a one-character separator `d`. -/
def splitOnCode (d : Nat) : List Nat → List (List Nat)
  | [] => [[]]
  | c :: cs =>
    if c = d then [] :: splitOnCode d cs
    else
      match splitOnCode d cs with
      | [] => [[c]]
      | p :: ps => (c :: p) :: ps

/-- JS `s.trim()` (whitespace stripped from both ends). -/
def trimStr (s : List Nat) : List Nat :=
  ((s.dropWhile isSpaceCode).reverse.dropWhile isSpaceCode).reverse

/-- Join a list of strings with a separator (JS `Array.join`). -/
def joinWith (sep : List Nat) : List (List Nat) → List Nat
  | [] => []
  | [p] => p
  | p :: ps => p ++ sep ++ joinWith sep ps

/-- Match, at the head of `s`, a sequence of case-insensitive word tokens
separated by `\s+` (one or more whitespace characters).  Renders JS regexes
such as `/PRIMARY\s+KEY/i` applied at a fixed position.  The greedy `\s+`
needs no backtracking because no token starts with a whitespace character. -/
def tokSeqAt : List (List Nat) → List Nat → Bool
  | [], _ => true
  | [t], s => lpreCI t s
  | t :: rest, s =>
    if lpreCI t s then
      let s1 := s.drop t.length
      if (s1.takeWhile isSpaceCode).isEmpty then false
      else tokSeqAt rest (s1.dropWhile isSpaceCode)
    else false

/-- `RegExp.test` of a token-sequence pattern: scan every position. -/
def hasTokSeq (toks : List (List Nat)) : List Nat → Bool
  | [] => tokSeqAt toks []
  | s@(_ :: cs) => if tokSeqAt toks s then true else hasTokSeq toks cs

/-! ## PrismaParser (src/src/parsers/PrismaParser.ts) -/

/-- The nine Prisma primitive type names of `PrismaParser.isPrimitiveType`. -/
def primitives : List (List Nat) :=
  [str "String", str "Int", str "Float", str "Boolean", str "DateTime",
   str "Json", str "Bytes", str "Decimal", str "BigInt"]

/-- `PrismaParser.isPrimitiveType`. -/
def isPrimitiveType (t : List Nat) : Bool := primitives.contains t

/-- The field-line regex `^(\w+)\s+(\w+(\[\])?|\w+\?)\s*(.*)?$` of
`parseFields` and `parseRelations`.  Returns
`(fieldName, base type word, array flag, raw tail)` where the raw tail is
the remainder right after the type (before the greedy `\s*`); the
`attributes` capture of the source is `rawTail.dropWhile isSpaceCode`.
The alternative `\w+\?` of the regex is unreachable: the first alternative
`\w+(\[\])?` already succeeds whenever a word character is present, and the
trailing `\s*(.*)?$` always matches, so a `?` after the type lands in the
attributes capture.  Word characters, whitespace and `[` are pairwise
disjoint, so the greedy scan below is exact. -/
def parseFieldLine (l : List Nat) : Option (List Nat × List Nat × Bool × List Nat) :=
  let name := l.takeWhile isWordCode
  let r1 := l.dropWhile isWordCode
  if name.isEmpty then none
  else
    let sp := r1.takeWhile isSpaceCode
    let r2 := r1.dropWhile isSpaceCode
    if sp.isEmpty then none
    else
      let base := r2.takeWhile isWordCode
      let r3 := r2.dropWhile isWordCode
      if base.isEmpty then none
      else if lpre (str "[]") r3 then some (name, base, true, r3.drop 2)
      else some (name, base, false, r3)

/-- One parsed field record of `PrismaParser.parseFields`. -/
structure PField where
  name : List Nat
  type : List Nat
  hasConnections : Bool
  isForeignKey : Bool
  isRelation : Bool
  isPrimaryKey : Bool
deriving Repr, DecidableEq

/-- The body of the `parseFields` loop for one (trimmed, non-empty) line:
skip `//` and `@@` lines, otherwise classify the field.  In the source,
`fieldType.replace('[]', '').replace('?', '')` equals the base type word,
since the regex puts any `?` into the attributes capture. -/
def classifyField (line : List Nat) : Option PField :=
  if lpre (str "//") line || lpre (str "@@") line then none
  else
    match parseFieldLine line with
    | none => none
    | some (fieldName, base, isArr, rawTail) =>
      let attributes := rawTail.dropWhile isSpaceCode
      let fieldType := base ++ (if isArr then str "[]" else [])
      let hasRelation := containsSub attributes (str "@relation")
      let isObjectType := !(isPrimitiveType base)
      let isFK := isPrimitiveType fieldType && lsuf (str "Id") fieldName
      let isRel := hasRelation && isObjectType
      let isPK := containsSub attributes (str "@id") ||
        (fieldName == str "id" && isPrimitiveType fieldType) ||
        (containsSub (lowerStr fieldName) (str "id") &&
          containsSub attributes (str "@unique"))
      some ⟨fieldName, fieldType, hasRelation || isObjectType, isFK, isRel, isPK⟩

/-- `modelBody.split('\n').map(trim).filter(line => line)`. -/
def linesOf (body : List Nat) : List (List Nat) :=
  ((splitOnCode 10 body).map trimStr).filter (fun l => !l.isEmpty)

/-- `PrismaParser.parseFields`. -/
def parseFields (modelBody : List Nat) : List PField :=
  (linesOf modelBody).filterMap classifyField

/-- Internal model record (`{ name, body, fields }` of `allModels`). -/
structure IModel where
  name : List Nat
  body : List Nat
  fields : List PField
deriving Repr, DecidableEq

/-- The junction-table regex `^(\w+)\s+(\w+)\s+@relation\(fields:` of
`isJunctionTable`, anchored at the start of the line; returns the captured
type word on success.  Deterministic for the same disjointness reasons as
`parseFieldLine`. -/
def junctionRefOf (line : List Nat) : Option (List Nat) :=
  let name := line.takeWhile isWordCode
  let r1 := line.dropWhile isWordCode
  if name.isEmpty then none
  else
    let sp1 := r1.takeWhile isSpaceCode
    let r2 := r1.dropWhile isSpaceCode
    if sp1.isEmpty then none
    else
      let typ := r2.takeWhile isWordCode
      let r3 := r2.dropWhile isWordCode
      if typ.isEmpty then none
      else
        let sp2 := r3.takeWhile isSpaceCode
        let r4 := r3.dropWhile isSpaceCode
        if sp2.isEmpty then none
        else if lpre (str "@relation(fields:") r4 then some typ else none

/-- The `relatedModels` collected by `isJunctionTable`: for every
(trimmed, non-empty) body line matching the junction regex whose captured
type is not a primitive, push that type.  Duplicates are kept. -/
def relatedRefs (body : List Nat) : List (List Nat) :=
  (linesOf body).filterMap fun l =>
    match junctionRefOf l with
    | some t => if isPrimitiveType t then none else some t
    | none => none

/-- Result record of `PrismaParser.isJunctionTable`. -/
structure JunctionInfo where
  isJunction : Bool
  relatedModels : List (List Nat)
deriving Repr, DecidableEq

/-- `PrismaParser.isJunctionTable`. -/
def isJunctionTable (m : IModel) : JunctionInfo :=
  let foreignKeyFields := m.fields.filter (·.isForeignKey)
  if 2 ≤ foreignKeyFields.length then
    let relatedModels := relatedRefs m.body
    ⟨decide (2 ≤ relatedModels.length), relatedModels⟩
  else ⟨false, []⟩

/-- Relationship cardinality (the source's `relationType` string union). -/
inductive RelType
  | oneToOne
  | oneToMany
  | manyToOne
  | manyToMany
deriving Repr, DecidableEq

/-- One `ModelConnection` record emitted by `parseRelations`. -/
structure Connection where
  source : List Nat
  target : List Nat
  name : List Nat
  label : List Nat
  foreignKey : List Nat
  references : List Nat
  relationType : RelType
deriving Repr, DecidableEq

/-- Attempt, at a fixed position of `s`, the pattern
`pat` then `\s*` then `[` then `[^\]]+` then `]` — the shape of the
`fields:\s*\[([^\]]+)\]` and `references:\s*\[([^\]]+)\]` regexes of
`parseRelations`.  Returns the bracketed capture. -/
def bracketCaptureAt (pat : List Nat) (s : List Nat) : Option (List Nat) :=
  if lpre pat s then
    let r1 := (s.drop pat.length).dropWhile isSpaceCode
    match r1 with
    | 91 :: r2 =>
      let cap := r2.takeWhile (fun c => c != 93)
      let r3 := r2.dropWhile (fun c => c != 93)
      if cap.isEmpty then none
      else
        match r3 with
        | 93 :: _ => some cap
        | _ => none
    | _ => none
  else none

/-- First match of the bracket-capture pattern anywhere in the string
(JS `String.match` without the global flag). -/
def bracketCapture (pat : List Nat) : List Nat → Option (List Nat)
  | [] => none
  | s@(_ :: cs) =>
    match bracketCaptureAt pat s with
    | some c => some c
    | none => bracketCapture pat cs

/-- The pass-1 cardinality/label chain of the `parseRelations` loop body:
many-to-many when the current model is a junction whose related models
include the target; otherwise, for an array-typed target, many-to-many
when the target model is itself a junction and one-to-many when it is not
(or is not found); otherwise many-to-one when the attributes contain the
substring `fields:`; otherwise one-to-one. -/
def defaultRelAndLabel (modelName : List Nat) (junctionInfo : JunctionInfo)
    (allModels : List IModel) (fieldName targetModel attributes : List Nat)
    (isArr : Bool) : RelType × List Nat :=
  if junctionInfo.isJunction &&
      junctionInfo.relatedModels.contains targetModel then
    (.manyToMany, fieldName ++ str " (M:N via " ++ modelName ++ str ")")
  else if isArr then
    match allModels.find? (fun m => m.name == targetModel) with
    | some tm =>
      if (isJunctionTable tm).isJunction then
        (.manyToMany, fieldName ++ str " (M:N)")
      else (.oneToMany, fieldName ++ str " (1:N)")
    | none => (.oneToMany, fieldName ++ str " (1:N)")
  else if containsSub attributes (str "fields:") then (.manyToOne, fieldName)
  else (.oneToOne, fieldName)

/-- The `if (attributes.includes('@relation'))` block of the loop body: a
non-empty `fields: [...]` capture sets the foreign key and overrides the
cardinality to many-to-one; a `references: [...]` capture sets the
referenced columns; the display label is then rebuilt from the possibly
overridden cardinality.  Returns
`(relationType, label, foreignKey, references)`. -/
def applyRelationOverride (st1 : RelType × List Nat)
    (fieldName attributes : List Nat) : RelType × List Nat × List Nat × List Nat :=
  if containsSub attributes (str "@relation") then
    let fm := bracketCapture (str "fields:") attributes
    let rm := bracketCapture (str "references:") attributes
    let fk := match fm with | some c => trimStr c | none => []
    let rt := match fm with | some _ => RelType.manyToOne | none => st1.1
    let refs := match rm with | some c => trimStr c | none => []
    let label :=
      if !fk.isEmpty && !refs.isEmpty then
        fk ++ str " â†’ " ++ refs ++ str " (N:1)"
      else if rt = RelType.oneToMany then fieldName ++ str " (1:N)"
      else if rt = RelType.oneToOne then fieldName ++ str " (1:1)"
      else st1.2
    (rt, label, fk, refs)
  else (st1.1, st1.2, [], [])

/-- The body of the `parseRelations` loop for one (trimmed, non-empty)
line.  Mirrors the source statement for statement: the default cardinality
is decided by the junction / array / `fields:` chain
(`defaultRelAndLabel`), and the later `if (fieldsMatch)` block
(`applyRelationOverride`) overrides the cardinality to many-to-one
whenever the attributes contain `@relation` together with a non-empty
`fields: [...]` capture. -/
def relationForLine (modelName : List Nat) (junctionInfo : JunctionInfo)
    (allModels : List IModel) (line : List Nat) : Option Connection :=
  match parseFieldLine line with
  | none => none
  | some (fieldName, base, isArr, rawTail) =>
    let attributes := rawTail.dropWhile isSpaceCode
    if containsSub attributes (str "@relation") || !(isPrimitiveType base) then
      let targetModel := base
      if !(isPrimitiveType targetModel) then
        let st2 := applyRelationOverride
          (defaultRelAndLabel modelName junctionInfo allModels fieldName
            targetModel attributes isArr) fieldName attributes
        some
          { source := modelName ++ str "-" ++ fieldName ++ str "-source"
            target := targetModel ++ str "-target"
            name := fieldName
            label := st2.2.1
            foreignKey := st2.2.2.1
            references := st2.2.2.2
            relationType := st2.1 }
      else none
    else none

/-- The junction info `parseRelations` computes for the current model:
`allModels.find(m => m.name === modelName)`, defaulting to the
not-a-junction record. -/
def junctionInfoFor (modelName : List Nat) (allModels : List IModel) : JunctionInfo :=
  match allModels.find? (fun m => m.name == modelName) with
  | some m => isJunctionTable m
  | none => ⟨false, []⟩

/-- `PrismaParser.parseRelations`. -/
def parseRelations (modelName body : List Nat) (allModels : List IModel) :
    List Connection :=
  (linesOf body).filterMap
    (relationForLine modelName (junctionInfoFor modelName allModels) allModels)

/-- Match, at a fixed position, the block pattern
`KEYWORD\s+(\w+)\s*{([^}]*)}` used by the model and enum regexes of
`PrismaParser.parse` (case sensitive, no flags besides `g`).  `[^}]*` is
exactly "up to the first closing brace".  Returns the name, the body and
the remainder of the input after the closing brace. -/
def blockMatchAt (kw : List Nat) (s : List Nat) :
    Option (List Nat × List Nat × List Nat) :=
  if lpre kw s then
    let r1 := s.drop kw.length
    if (r1.takeWhile isSpaceCode).isEmpty then none
    else
      let r2 := r1.dropWhile isSpaceCode
      let name := r2.takeWhile isWordCode
      if name.isEmpty then none
      else
        let r3 := (r2.dropWhile isWordCode).dropWhile isSpaceCode
        match r3 with
        | 123 :: r4 =>
          let body := r4.takeWhile (fun c => c != 125)
          let r5 := r4.dropWhile (fun c => c != 125)
          match r5 with
          | 125 :: rest => some (name, body, rest)
          | _ => none
        | _ => none
  else none

/-- Repeated `RegExp.exec` with the global flag: try the block pattern at
every position, left to right; on a match continue after it.  Every step
consumes at least one character, so `fuel := length + 1` never runs out. -/
def scanBlocks (kw : List Nat) : Nat → List Nat → List (List Nat × List Nat)
  | 0, _ => []
  | fuel + 1, s =>
    match blockMatchAt kw s with
    | some (name, body, rest) => (name, body) :: scanBlocks kw fuel rest
    | none =>
      match s with
      | [] => []
      | _ :: cs => scanBlocks kw fuel cs

/-- Output model record of `PrismaParser.parse`. -/
structure PModel where
  name : List Nat
  fields : List PField
  isChild : Bool
deriving Repr, DecidableEq

/-- Output enum record of `PrismaParser.parse`. -/
structure PEnum where
  name : List Nat
  values : List (List Nat)
deriving Repr, DecidableEq

/-- The full result of `PrismaParser.parse`. -/
structure ParsedSchema where
  models : List PModel
  enums : List PEnum
  connections : List Connection
deriving Repr, DecidableEq

/-- The `allModels` list built by the first loop of `PrismaParser.parse`. -/
def allModelsOf (schemaContent : List Nat) : List IModel :=
  (scanBlocks (str "model") (schemaContent.length + 1) schemaContent).map
    (fun nb => ⟨nb.1, nb.2, parseFields nb.2⟩)

/-- Enum values: body lines, trimmed, non-empty, not `//` comments, first
whitespace-separated token (`line.split(/\s+/)[0]` on a trimmed line). -/
def enumValuesOf (body : List Nat) : List (List Nat) :=
  (((splitOnCode 10 body).map trimStr).filter
      (fun l => !l.isEmpty && !lpre (str "//") l)).map
    (fun l => l.takeWhile (fun c => !isSpaceCode c))

/-- `PrismaParser.parse`. -/
def prismaParse (schemaContent : List Nat) : ParsedSchema :=
  let allModels := allModelsOf schemaContent
  let models := allModels.map (fun m =>
    PModel.mk m.name m.fields
      (m.fields.any (fun f => f.hasConnections && lsuf (str "Id") f.name)))
  let connections :=
    (allModels.map (fun m => parseRelations m.name m.body allModels)).flatten
  let enums :=
    (scanBlocks (str "enum") (schemaContent.length + 1) schemaContent).map
      (fun nb => PEnum.mk nb.1 (enumValuesOf nb.2))
  ⟨models, enums, connections⟩

/-! ## SqlToPrismaConverter (src/src/parsers/SqlToPrismaConverter.ts) -/

/-- Double or single quote, the class `["']`. -/
def isQuoteCode (n : Nat) : Bool := n = 34 || n = 39

/-- The single-line-comment removal of `parseSqlTables`: the replaced
pattern is "dash dash, then everything up to the end of the line", with
the global and multiline flags.  With the multiline flag the end anchor
matches before any line terminator and the dot crosses none of them, so
both the newline and the carriage return bound a match: within every
newline-delimited line, every carriage-return-delimited segment is
truncated at its first dash-dash pair, and the terminators themselves
survive (the global scan resumes right at the terminator). -/
def stripLineComments (sql : List Nat) : List Nat :=
  joinWith [10] ((splitOnCode 10 sql).map (fun l =>
    joinWith [13] ((splitOnCode 13 l).map (fun seg =>
      match findSub seg (str "--") with
      | some i => seg.take i
      | none => seg))))

/-- `replace(/\/\*[\s\S]*?\*\//g, '')`: repeatedly remove from the first
(remaining) comment opener through the nearest closer; an opener with no
closer after it stays (the regex cannot match it).  Each removal drops at
least four characters, so `fuel := length + 1` never runs out. -/
def stripBlockComments : Nat → List Nat → List Nat
  | 0, s => s
  | fuel + 1, s =>
    match findSub s (str "/*") with
    | none => s
    | some i =>
      let rest := s.drop (i + 2)
      match findSub rest (str "*/") with
      | none => s
      | some j => s.take i ++ stripBlockComments fuel (rest.drop (j + 2))

/-- Match, at a fixed position, the table-statement pattern
`CREATE\s+TABLE\s+(?:IF\s+NOT\s+EXISTS\s+)?["']?(\w+)["']?\s*\(([\s\S]*?)\);`
(case-insensitive).  The lazy body capture reaches exactly to the first
following `);`.  Returns table name, body, and the remainder after the
match.  The optional `IF NOT EXISTS` group either matches wholly or is
skipped; optional quotes are consumed when present (the following expected
characters — word characters, `(`, whitespace — are never quotes, so this
is the unique match). -/
def tableMatchAt (s : List Nat) : Option (List Nat × List Nat × List Nat) :=
  if lpreCI (str "create") s then
    let r1 := s.drop 6
    if (r1.takeWhile isSpaceCode).isEmpty then none
    else
      let r2 := r1.dropWhile isSpaceCode
      if lpreCI (str "table") r2 then
        let r3 := r2.drop 5
        if (r3.takeWhile isSpaceCode).isEmpty then none
        else
          let r4 := r3.dropWhile isSpaceCode
          let r5 :=
            if lpreCI (str "if") r4 then
              let a := r4.drop 2
              if (a.takeWhile isSpaceCode).isEmpty then r4
              else
                let b := a.dropWhile isSpaceCode
                if lpreCI (str "not") b then
                  let c := b.drop 3
                  if (c.takeWhile isSpaceCode).isEmpty then r4
                  else
                    let d := c.dropWhile isSpaceCode
                    if lpreCI (str "exists") d then
                      let e := d.drop 6
                      if (e.takeWhile isSpaceCode).isEmpty then r4
                      else e.dropWhile isSpaceCode
                    else r4
                else r4
            else r4
          let r6 := match r5 with
            | q :: t => if isQuoteCode q then t else r5
            | [] => r5
          let name := r6.takeWhile isWordCode
          if name.isEmpty then none
          else
            let r7 := r6.dropWhile isWordCode
            let r8 := match r7 with
              | q :: t => if isQuoteCode q then t else r7
              | [] => r7
            match r8.dropWhile isSpaceCode with
            | 40 :: r9 =>
              match findSub r9 (str ");") with
              | some j => some (name, r9.take j, r9.drop (j + 2))
              | none => none
            | _ => none
      else none
  else none

/-- Repeated global `exec` of the table pattern.  Every step consumes at
least one character, so `fuel := length + 1` never runs out. -/
def scanTables : Nat → List Nat → List (List Nat × List Nat)
  | 0, _ => []
  | fuel + 1, s =>
    match tableMatchAt s with
    | some (n, b, rest) => (n, b) :: scanTables fuel rest
    | none =>
      match s with
      | [] => []
      | _ :: cs => scanTables fuel cs

/-- `SqlToPrismaConverter.splitTableBody` accumulator loop.  The depth is a
signed integer in the source (an unbalanced `)` drives it negative), hence
`Int` here. -/
def splitBodyAux : List Nat → Int → List Nat → List (List Nat)
  | [], _, cur => if (trimStr cur).isEmpty then [] else [cur]
  | c :: rest, depth, cur =>
    let d1 : Int := if c = 40 then depth + 1 else depth
    let d2 : Int := if c = 41 then d1 - 1 else d1
    if c = 44 && d2 = 0 then cur :: splitBodyAux rest d2 []
    else splitBodyAux rest d2 (cur ++ [c])

/-- `SqlToPrismaConverter.splitTableBody`. -/
def splitTableBody (body : List Nat) : List (List Nat) := splitBodyAux body 0 []

/-- The sub-pattern `["']?(\w+)["']?`: optional quote, word capture,
optional quote; returns capture and remainder. -/
def quotedWordThen (s : List Nat) : Option (List Nat × List Nat) :=
  let s1 := match s with
    | q :: t => if isQuoteCode q then t else s
    | [] => s
  let w := s1.takeWhile isWordCode
  if w.isEmpty then none
  else
    let r := s1.dropWhile isWordCode
    let r2 := match r with
      | q :: t => if isQuoteCode q then t else r
      | [] => r
    some (w, r2)

/-- Match, at a fixed position, the foreign-key pattern
`FOREIGN\s+KEY\s*\(["']?(\w+)["']?\)\s*REFERENCES\s+["']?(\w+)["']?\s*\(["']?(\w+)["']?\)`
(case-insensitive).  Returns `(column, refTable, refColumn)`. -/
def fkMatchAt (s : List Nat) : Option (List Nat × List Nat × List Nat) :=
  if lpreCI (str "foreign") s then
    let r1 := s.drop 7
    if (r1.takeWhile isSpaceCode).isEmpty then none
    else
      let r2 := r1.dropWhile isSpaceCode
      if lpreCI (str "key") r2 then
        match (r2.drop 3).dropWhile isSpaceCode with
        | 40 :: r4 =>
          match quotedWordThen r4 with
          | some (col, r5) =>
            match r5 with
            | 41 :: r6 =>
              let r7 := r6.dropWhile isSpaceCode
              if lpreCI (str "references") r7 then
                let r8 := r7.drop 10
                if (r8.takeWhile isSpaceCode).isEmpty then none
                else
                  match quotedWordThen (r8.dropWhile isSpaceCode) with
                  | some (tbl, r10) =>
                    match r10.dropWhile isSpaceCode with
                    | 40 :: r12 =>
                      match quotedWordThen r12 with
                      | some (rcol, r13) =>
                        match r13 with
                        | 41 :: _ => some (col, tbl, rcol)
                        | _ => none
                      | none => none
                    | _ => none
                  | none => none
              else none
            | _ => none
          | none => none
        | _ => none
      else none
  else none

/-- First match of the foreign-key pattern anywhere in the fragment. -/
def fkMatchScan : List Nat → Option (List Nat × List Nat × List Nat)
  | [] => none
  | s@(_ :: cs) =>
    match fkMatchAt s with
    | some r => some r
    | none => fkMatchScan cs

/-- The anchored test `^["']?\w+["']?\s+` used to tell column definitions
from table-level constraint clauses. -/
def startsLikeColumn (s : List Nat) : Bool :=
  let s1 := match s with
    | q :: t => if isQuoteCode q then t else s
    | [] => s
  let w := s1.takeWhile isWordCode
  if w.isEmpty then false
  else
    let r := s1.dropWhile isWordCode
    let r2 := match r with
      | q :: t => if isQuoteCode q then t else r
      | [] => r
    !(r2.takeWhile isSpaceCode).isEmpty

/-- No line terminator of the modelled ASCII range (newline or carriage
return) occurs in the string.  The dot of an un-multilined JS pattern
matches neither, and the un-flagged end anchor only matches at the very
end of the input, so a capture produced by `.*` followed by that anchor
must be free of both. -/
def noLineTerm (s : List Nat) : Bool := s.all (fun c => c != 10 && c != 13)

/-- Completion of the column pattern: the match — and with it the column —
exists only when the constraints capture is free of line terminators. -/
def colRet (name dataType constraints : List Nat) :
    Option (List Nat × List Nat × List Nat) :=
  if noLineTerm constraints then some (name, dataType, constraints) else none

/-- Match, at position 0, the column pattern
`^["']?(\w+)["']?\s+([A-Z][A-Z0-9_]*(?:\([^)]+\))?)\s*(.*)?$` (flag `i`).
Returns `(name, dataType, constraints)`.  The optional parenthesized
parameter group matches up to the first `)`; when it cannot match (no `(`,
or an empty or unclosed parameter list) it is skipped and the `(`, if any,
lands in the constraints capture.  The pattern ends in an un-flagged end
anchor and the dot crosses no line terminator, so the whole match fails —
and the fragment contributes no column — whenever a line terminator
remains after the greedy whitespace run preceding the constraints capture
(shortening any earlier greedy part cannot remove a terminator from the
tail, so no backtracking rescues such a fragment). -/
def columnMatchAt (s : List Nat) : Option (List Nat × List Nat × List Nat) :=
  let s1 := match s with
    | q :: t => if isQuoteCode q then t else s
    | [] => s
  let name := s1.takeWhile isWordCode
  if name.isEmpty then none
  else
    let r := s1.dropWhile isWordCode
    let r2 := match r with
      | q :: t => if isQuoteCode q then t else r
      | [] => r
    if (r2.takeWhile isSpaceCode).isEmpty then none
    else
      match r2.dropWhile isSpaceCode with
      | c :: r4 =>
        if isAlphaCode c then
          let tbase := c :: r4.takeWhile isWordCode
          let r5 := r4.dropWhile isWordCode
          match r5 with
          | 40 :: r6 =>
            let inner := r6.takeWhile (fun x => x != 41)
            let r7 := r6.dropWhile (fun x => x != 41)
            if inner.isEmpty then colRet name tbase (r5.dropWhile isSpaceCode)
            else
              match r7 with
              | 41 :: r8 =>
                colRet name (tbase ++ [40] ++ inner ++ [41]) (r8.dropWhile isSpaceCode)
              | _ => colRet name tbase (r5.dropWhile isSpaceCode)
          | _ => colRet name tbase (r5.dropWhile isSpaceCode)
        else none
      | [] => none

/-- The value class `[^,\s]` of the DEFAULT pattern. -/
def isValCode (n : Nat) : Bool := !(isSpaceCode n) && n != 44

/-- Index of the last occurrence of `q` in `l`. -/
def lastIdxEq (q : Nat) (l : List Nat) : Option Nat :=
  match l.reverse.findIdx? (fun x => x == q) with
  | some i => some (l.length - 1 - i)
  | none => none

/-- Match, at a fixed position, `DEFAULT\s+(['"]?)([^,\s]+)\1`
(case-insensitive), returning the value capture.  When an opening quote is
present, the greedy value backtracks to end right before the last matching
quote; if no interior closing quote exists the optional quote group
falls back to empty and the quote becomes part of the value, exactly as
the JavaScript engine backtracks. -/
def defaultMatchAt (s : List Nat) : Option (List Nat) :=
  if lpreCI (str "default") s then
    let r1 := s.drop 7
    if (r1.takeWhile isSpaceCode).isEmpty then none
    else
      match r1.dropWhile isSpaceCode with
      | [] => none
      | q :: r3 =>
        if isQuoteCode q then
          let run := r3.takeWhile isValCode
          match lastIdxEq q run with
          | some k => if 1 ≤ k then some (run.take k) else some (q :: run)
          | none => some (q :: run)
        else
          let run := (q :: r3).takeWhile isValCode
          if run.isEmpty then none else some run
  else none

/-- First match of the DEFAULT pattern anywhere in the constraints. -/
def defaultScan : List Nat → Option (List Nat)
  | [] => none
  | s@(_ :: cs) =>
    match defaultMatchAt s with
    | some v => some v
    | none => defaultScan cs

/-- One parsed SQL column. -/
structure Column where
  name : List Nat
  type : List Nat
  nullable : Bool
  primaryKey : Bool
  unique : Bool
  defaultValue : Option (List Nat)
deriving Repr, DecidableEq

/-- Build the column record pushed by `parseSqlTables` from the three
captures of the column pattern: the constraint sub-patterns
`NOT NULL` / `PRIMARY KEY` / `UNIQUE` / `DEFAULT ...` are tested
independently, and the stored nullability is `!primaryKey && nullable`. -/
def mkColumn (name dataType constraints : List Nat) : Column :=
  let nullable := !(hasTokSeq [str "not", str "null"] constraints)
  let primaryKey := hasTokSeq [str "primary", str "key"] constraints
  let unique := containsCI constraints (str "unique")
  let defaultValue := defaultScan constraints
  ⟨name, dataType, !primaryKey && nullable, primaryKey, unique, defaultValue⟩

/-- One parsed `CREATE TABLE` statement. -/
structure SqlTable where
  name : List Nat
  columns : List Column
  foreignKeys : List (List Nat × List Nat × List Nat)
deriving Repr, DecidableEq

/-- Classification of one body fragment, in the source's priority order:
blank → skipped; `FOREIGN KEY` → explicit foreign key (when the full
pattern matches); table-level constraint clause → skipped; otherwise a
column definition when the column pattern matches. -/
def processFragment (acc : List Column × List (List Nat × List Nat × List Nat))
    (line : List Nat) : List Column × List (List Nat × List Nat × List Nat) :=
  let trimmed := trimStr line
  if trimmed.isEmpty then acc
  else if hasTokSeq [str "foreign", str "key"] trimmed then
    match fkMatchScan trimmed with
    | some fk => (acc.1, acc.2 ++ [fk])
    | none => acc
  else if (hasTokSeq [str "primary", str "key"] trimmed ||
      containsCI trimmed (str "unique") || containsCI trimmed (str "check") ||
      containsCI trimmed (str "constraint")) && !(startsLikeColumn trimmed) then
    acc
  else
    match columnMatchAt trimmed with
    | some (n, t, c) => (acc.1 ++ [mkColumn n t c], acc.2)
    | none => acc

/-- `SqlToPrismaConverter.parseSqlTables`. -/
def parseSqlTables (sql : List Nat) : List SqlTable :=
  let cleaned := stripBlockComments (sql.length + 1) (stripLineComments sql)
  (scanTables (cleaned.length + 1) cleaned).map (fun nb =>
    let cf := (splitTableBody nb.2).foldl processFragment ([], [])
    ⟨nb.1, cf.1, cf.2⟩)

/-- The SQL type table of `mapSqlTypeToPrisma`. -/
def sqlTypeMap : List (List Nat × List Nat) :=
  [(str "INT", str "Int"), (str "INTEGER", str "Int"), (str "SMALLINT", str "Int"),
   (str "BIGINT", str "BigInt"), (str "TINYINT", str "Int"),
   (str "VARCHAR", str "String"), (str "CHAR", str "String"),
   (str "TEXT", str "String"), (str "LONGTEXT", str "String"),
   (str "MEDIUMTEXT", str "String"),
   (str "DECIMAL", str "Decimal"), (str "NUMERIC", str "Decimal"),
   (str "FLOAT", str "Float"), (str "DOUBLE", str "Float"), (str "REAL", str "Float"),
   (str "DATE", str "DateTime"), (str "DATETIME", str "DateTime"),
   (str "TIMESTAMP", str "DateTime"), (str "TIME", str "DateTime"),
   (str "BOOLEAN", str "Boolean"), (str "BOOL", str "Boolean"),
   (str "JSON", str "Json"), (str "JSONB", str "Json"),
   (str "BLOB", str "Bytes"), (str "BYTEA", str "Bytes")]

/-- First-match association lookup with a default (a JS object literal has
distinct keys, so first match is the lookup). -/
def lookupD (tbl : List (List Nat × List Nat)) (k d : List Nat) : List Nat :=
  match tbl with
  | [] => d
  | (a, b) :: rest => if a = k then b else lookupD rest k d

/-- Own-key association lookup (the own-property part of a JS property
access on an object literal). -/
def lookupOpt : List (List Nat × List Nat) → List Nat → Option (List Nat)
  | [], _ => none
  | (a, b) :: rest, k => if a = k then some b else lookupOpt rest k

/-- A JS property access `typeMap[key] || defaultString` does not stop at
the literal's own keys: an absent key falls through to `Object.prototype`.
The only `Object.prototype` member names containing no uppercase letter —
hence the only ones reachable through a lowercased key, and the only ones
whose uppercased form could collide with an uppercased key —
are `constructor` and `__proto__`; both accesses yield a truthy non-string
(the `Object` function, resp. the prototype object itself), so the
`||` fallback does not fire and that inherited value leaks out.  `text`
is an ordinary string result; `protoLeak` records which inherited member
leaked. -/
inductive MapperResult
  | text (s : List Nat)
  | protoLeak (key : List Nat)
deriving Repr, DecidableEq

/-- Whether a mapper result is a string belonging to the canonical scalar
kinds (a leaked prototype member is not a string at all). -/
def MapperResult.isCanonicalText : MapperResult → Bool
  | .text v =>
    [str "String", str "Int", str "BigInt", str "Float", str "Decimal",
      str "Boolean", str "DateTime", str "Json", str "Bytes"].contains v
  | .protoLeak _ => false

/-- The full JS property-access lookup: own keys first, then the two
reachable `Object.prototype` members, then the string default. -/
def jsLookup (tbl : List (List Nat × List Nat)) (key d : List Nat) : MapperResult :=
  match lookupOpt tbl key with
  | some v => .text v
  | none =>
    if key = str "constructor" ∨ key = str "__proto__" then .protoLeak key
    else .text d

/-- The key normalization `sqlType.toUpperCase().split('(')[0]`. -/
def sqlTypeKey (sqlType : List Nat) : List Nat :=
  (upperStr sqlType).takeWhile (fun c => c != 40)

/-- `SqlToPrismaConverter.mapSqlTypeToPrisma`, as the string it returns.
The JS body is the property access `typeMap[type] || 'String'`; its
prototype-chain branch is unreachable here because the key is uppercased
first and both reachable `Object.prototype` member names contain
lowercase letters — `mapSqlTypeToPrismaJs_eq` below proves this
string-valued form equal to the prototype-faithful `jsLookup` form. -/
def mapSqlTypeToPrisma (sqlType : List Nat) : List Nat :=
  lookupD sqlTypeMap (sqlTypeKey sqlType) (str "String")

/-- `SqlToPrismaConverter.mapSqlTypeToPrisma` rendered with the full
property-access semantics, prototype chain included. -/
def mapSqlTypeToPrismaJs (sqlType : List Nat) : MapperResult :=
  jsLookup sqlTypeMap (sqlTypeKey sqlType) (str "String")

/-- `SqlToPrismaConverter.toPascalCase` (splits on `_` only). -/
def toPascalCase (s : List Nat) : List Nat :=
  ((splitOnCode 95 s).map (fun w =>
    match w with
    | [] => []
    | c :: rest => upperCode c :: lowerStr rest)).flatten

/-- The attribute list built for one column by `generatePrismaSchema`:
`@id @default(autoincrement())` for a primary key; `@unique` and the
recognized `DEFAULT` translations only for non-primary-key columns. -/
def colAttributes (column : Column) : List (List Nat) :=
  let a1 := if column.primaryKey then [str "@id @default(autoincrement())"] else []
  let a2 := if column.unique && !column.primaryKey then [str "@unique"] else []
  let a3 :=
    if column.defaultValue.isSome && !column.primaryKey then
      match column.defaultValue with
      | some dv =>
        if lowerStr dv == str "now()" || lowerStr dv == str "current_timestamp" then
          [str "@default(now())"]
        else if lowerStr dv == str "true" || lowerStr dv == str "false" then
          [str "@default(" ++ lowerStr dv ++ str ")"]
        else []
      | none => []
    else []
  a1 ++ a2 ++ a3

/-- The full field line emitted for one column (two-space indent, name,
mapped type, `?` only for nullable non-primary-key columns, attributes). -/
def colFieldLine (column : Column) : List Nat :=
  let prismaType := mapSqlTypeToPrisma column.type
  let nullable := if column.nullable && !column.primaryKey then str "?" else []
  let fieldLine := str "  " ++ column.name ++ str " " ++ prismaType ++ nullable
  let attrs := colAttributes column
  if attrs.isEmpty then fieldLine
  else fieldLine ++ str " " ++ joinWith (str " ") attrs

/-- The model block emitted for one table. -/
def genTable (t : SqlTable) : List Nat :=
  str "model " ++ toPascalCase t.name ++ str " \x7b\n" ++
  ((t.columns.map (fun c => colFieldLine c ++ [10])).flatten) ++
  ((t.foreignKeys.map (fun fk =>
    str "  " ++ fk.2.1 ++ str " " ++ toPascalCase fk.2.1 ++
    str " @relation(fields: [" ++ fk.1 ++ str "], references: [" ++
    fk.2.2 ++ str "])\n")).flatten) ++
  str "\x7d\n\n"

/-- The fixed generator/datasource header of `generatePrismaSchema`. -/
def sqlHeader : List Nat :=
  str "// Auto-generated Prisma schema from SQL\n\ngenerator client \x7b\n  provider = \"prisma-client-js\"\n\x7d\n\ndatasource db \x7b\n  provider = \"postgresql\"\n  url      = env(\"DATABASE_URL\")\n\x7d\n\n"

/-- `SqlToPrismaConverter.generatePrismaSchema` (trimmed at the end). -/
def generatePrismaSchema (tables : List SqlTable) : List Nat :=
  trimStr (sqlHeader ++ (tables.map genTable).flatten)

/-- `SqlToPrismaConverter.convert`.  The embedded pipeline is total, so
the `catch` branch of the source is dead here. -/
def sqlConvert (sqlContent : List Nat) : List Nat :=
  generatePrismaSchema (parseSqlTables sqlContent)

/-! ## JsonToPrismaConverter.mapJsonTypeToPrisma
(src/client/src/parsers/JsonToPrismaConverter.ts) -/

/-- The JSON type table of `mapJsonTypeToPrisma`. -/
def jsonTypeMap : List (List Nat × List Nat) :=
  [(str "string", str "String"), (str "text", str "String"),
   (str "varchar", str "String"), (str "char", str "String"),
   (str "int", str "Int"), (str "integer", str "Int"),
   (str "number", str "Int"), (str "smallint", str "Int"),
   (str "bigint", str "BigInt"), (str "long", str "BigInt"),
   (str "float", str "Float"), (str "double", str "Float"),
   (str "real", str "Float"),
   (str "decimal", str "Decimal"), (str "numeric", str "Decimal"),
   (str "boolean", str "Boolean"), (str "bool", str "Boolean"),
   (str "date", str "DateTime"), (str "datetime", str "DateTime"),
   (str "timestamp", str "DateTime"),
   (str "json", str "Json"), (str "jsonb", str "Json"),
   (str "object", str "Json"),
   (str "bytes", str "Bytes"), (str "binary", str "Bytes"),
   (str "blob", str "Bytes")]

/-- `JsonToPrismaConverter.mapJsonTypeToPrisma`: an absent or empty type
token is falsy in JS and yields `String` immediately; otherwise the
property access `typeMap[type.toLowerCase()] || 'String'` runs with the
full prototype chain, so the lowercased tokens `constructor` and
`__proto__` leak the inherited `Object.prototype` member instead of
falling back to `String`. -/
def mapJsonTypeToPrisma (jsonType : List Nat) : MapperResult :=
  if jsonType.isEmpty then .text (str "String")
  else jsLookup jsonTypeMap (lowerStr jsonType) (str "String")

/-! ## SchemaConverter (src/client/src/parsers/SchemaConverter.ts) -/

/-- `SchemaConverter.SUPPORTED_EXTENSIONS`. -/
def SUPPORTED_EXTENSIONS : List (List Nat) :=
  [str "prisma", str "sql", str "psql", str "json"]

/-- `SchemaConverter.getFileExtension`:
`fileName.split('.').pop()?.toLowerCase() || ''`. -/
def getFileExtension (fileName : List Nat) : List Nat :=
  lowerStr ((splitOnCode 46 fileName).getLastD [])

/-- `SchemaConverter.isSupportedFile`. -/
def isSupportedFile (fileName : List Nat) : Bool :=
  SUPPORTED_EXTENSIONS.contains (getFileExtension fileName)

/-- Match, at a fixed position, `KEYWORD\s+\w+\s*{` case-insensitively
(the `validatePrismaSchema` model/enum presence tests). -/
def headerMatchAt (kw : List Nat) (s : List Nat) : Bool :=
  if lpreCI kw s then
    let r1 := s.drop kw.length
    if (r1.takeWhile isSpaceCode).isEmpty then false
    else
      let r2 := r1.dropWhile isSpaceCode
      if (r2.takeWhile isWordCode).isEmpty then false
      else
        match (r2.dropWhile isWordCode).dropWhile isSpaceCode with
        | 123 :: _ => true
        | _ => false
  else false

/-- `RegExp.test` of the header pattern: scan every position. -/
def hasHeaderMatch (kw : List Nat) : List Nat → Bool
  | [] => false
  | s@(_ :: cs) => headerMatchAt kw s || hasHeaderMatch kw cs

/-- `SchemaConverter.validatePrismaSchema`: `some message` when invalid,
`none` when valid.  The embedded `prismaParse` is total, so the source's
catch branch is dead here. -/
def validatePrismaSchema (schema : List Nat) : Option (List Nat) :=
  let hasModel := hasHeaderMatch (str "model") schema
  let hasEnum := hasHeaderMatch (str "enum") schema
  if !hasModel && !hasEnum then
    some (str "Schema must contain at least one model or enum definition")
  else
    let parsed := prismaParse schema
    if parsed.models.isEmpty && parsed.enums.isEmpty then
      some (str "No valid models or enums found in schema")
    else none

/-- The discriminated result of `SchemaConverter.convertToPrisma`. -/
structure ConversionResult where
  success : Bool
  prismaSchema : Option (List Nat)
  error : Option (List Nat)
  fileType : Option (List Nat)
deriving Repr, DecidableEq

/-- `SchemaConverter.convertToPrisma`.  The JSON branch calls
`JsonToPrismaConverter.convert`, which begins with the JavaScript builtin
`JSON.parse` — a host primitive external to the repository — so that
converter is taken as the explicit parameter `jsonConvert` (`.error` is a
thrown message, `.ok` a produced schema); every theorem below involving
this definition holds for every value of the parameter. -/
def convertToPrisma (jsonConvert : List Nat → Except (List Nat) (List Nat))
    (content fileName : List Nat) : ConversionResult :=
  let fileType := getFileExtension fileName
  if !(isSupportedFile fileName) then
    ⟨false, none,
      some (str "Unsupported file type. Supported formats: prisma, sql, psql, json"),
      none⟩
  else if (trimStr content).isEmpty then
    ⟨false, none, some (str "File is empty. Please provide a valid schema file."), none⟩
  else
    let step : Except ConversionResult (List Nat) :=
      if fileType == str "prisma" then
        match validatePrismaSchema content with
        | some e => .error ⟨false, none, some e, some fileType⟩
        | none => .ok content
      else if fileType == str "sql" || fileType == str "psql" then
        .ok (sqlConvert content)
      else if fileType == str "json" then
        match jsonConvert content with
        | .error e => .error ⟨false, none, some (str "JSON conversion error: " ++ e), some fileType⟩
        | .ok s => .ok s
      else .error ⟨false, none, some (str "Unsupported file format"), none⟩
    match step with
    | .error r => r
    | .ok prismaSchema =>
      match validatePrismaSchema prismaSchema with
      | some e =>
        ⟨false, none, some (str "Converted schema validation failed: " ++ e), some fileType⟩
      | none => ⟨true, some prismaSchema, none, some fileType⟩

/-! ## Specification-side definitions

The following definitions are written from the words of the specification
(spec.md) and of the claims, to be compared with the embedded source
definitions above. -/

/-- The spec's depth update: increment on an opening parenthesis,
decrement on a closing one, unchanged otherwise. -/
def depthStep (c : Nat) (d : Int) : Int :=
  if c = 40 then d + 1 else if c = 41 then d - 1 else d

/-- The split machine exactly as the specification words it: depth starts
at 0, steps by `depthStep`, and a split occurs only on a comma observed at
depth 0.  All fragments are kept.  Written as direct recursion,
independent of the accumulator loop of the source's `splitTableBody`. -/
def specTopSplit : Int → List Nat → List (List Nat)
  | _, [] => [[]]
  | depth, c :: rest =>
    if c = 44 ∧ depth = 0 then [] :: specTopSplit depth rest
    else
      match specTopSplit (depthStep c depth) rest with
      | p :: ps => (c :: p) :: ps
      | [] => [[c]]

/-- Drop a final fragment that is blank after trimming (the one deviation
of the source's splitter from the plain split: its last accumulated
fragment is pushed only when its trimmed form is non-empty). -/
def dropBlankLast (ps : List (List Nat)) : List (List Nat) :=
  if (trimStr (ps.getLastD [])).isEmpty then ps.dropLast else ps

/-- Prepend `cur` onto the first fragment of a split (used to relate the
accumulator loop to the direct recursion). -/
def consFirst (cur : List Nat) : List (List Nat) → List (List Nat)
  | [] => [cur]
  | p :: ps => (cur ++ p) :: ps

/-- The cardinality C2 must amend to: many-to-one whenever the attributes
carry `@relation` together with a non-empty `fields: [...]` capture (the
source's late override); otherwise one-to-many for an array-typed target;
otherwise many-to-one when the attributes contain the substring `fields:`;
otherwise one-to-one. -/
def c2Cardinality (line : List Nat) : RelType :=
  match parseFieldLine line with
  | some q =>
    let attrs := q.2.2.2.dropWhile isSpaceCode
    if containsSub attrs (str "@relation") &&
        (bracketCapture (str "fields:") attrs).isSome then .manyToOne
    else if q.2.2.1 then .oneToMany
    else if containsSub attrs (str "fields:") then .manyToOne
    else .oneToOne
  | none => .oneToOne

/-- Number of body lines carrying an explicit `@relation(fields:`
declaration whose declared type is not a scalar — the quantity the
junction classifier actually compares against 2 (with multiplicity). -/
def junctionLineCount (body : List Nat) : Nat :=
  (linesOf body).countP fun l =>
    match junctionRefOf l with
    | some t => !(isPrimitiveType t)
    | none => false

/-- The distinct models referenced by explicit relation declarations of a
body — the quantity the specification's junction definition asks for. -/
def distinctRefModels (body : List Nat) : List (List Nat) :=
  (relatedRefs body).dedup

/-- Field name captured by the field-line pattern (empty if no match). -/
def nameOfLine (line : List Nat) : List Nat :=
  match parseFieldLine line with
  | some q => q.1
  | none => []

/-- Full type token captured by the field-line pattern (with `[]`). -/
def typeStrOfLine (line : List Nat) : List Nat :=
  match parseFieldLine line with
  | some q => q.2.1 ++ (if q.2.2.1 then str "[]" else [])
  | none => []

/-- Attributes captured by the field-line pattern. -/
def attrsOfLine (line : List Nat) : List Nat :=
  match parseFieldLine line with
  | some q => q.2.2.2.dropWhile isSpaceCode
  | none => []

/-- Claim C6's first disjunct: the attributes carry an explicit `@id`
marker. -/
def specIdMarker (line : List Nat) : Bool :=
  containsSub (attrsOfLine line) (str "@id")

/-- Claim C6's second disjunct: the field is named exactly `id`
(case-sensitively) and has a scalar type. -/
def specNamedId (line : List Nat) : Bool :=
  nameOfLine line == str "id" && isPrimitiveType (typeStrOfLine line)

/-- Claim C6's third disjunct: the name contains `id` case-insensitively
and the attributes carry an explicit `@unique` marker. -/
def specUniqueId (line : List Nat) : Bool :=
  containsSub (lowerStr (nameOfLine line)) (str "id") &&
    containsSub (attrsOfLine line) (str "@unique")

/-- The canonical scalar kinds (Prisma spellings) a type mapper may
produce. -/
def canonicalKinds : List (List Nat) :=
  [str "String", str "Int", str "BigInt", str "Float", str "Decimal",
   str "Boolean", str "DateTime", str "Json", str "Bytes"]

/-- A concrete stand-in for the external JSON converter parameter. -/
def jc0 : List Nat → Except (List Nat) (List Nat) := fun _ => .error (str "x")

/-! Concrete inputs used by counterexamples and witnesses. -/

/-- A model whose two explicit relation declarations reference one and the
same other model (a self-join junction candidate). -/
def c1Schema : List Nat :=
  str "model Follow \x7b\n  followerId Int\n  followingId Int\n  follower User @relation(fields: [followerId], references: [id])\n  following User @relation(fields: [followingId], references: [id])\n\x7d\nmodel User \x7b\n  id Int @id\n\x7d"

/-- A junction-free schema whose array-typed relation field also carries
an explicit `fields: [...]` list. -/
def c2Schema : List Nat :=
  str "model A \x7b\n  bs B[] @relation(fields: [x], references: [y])\n\x7d\nmodel B \x7b\n  a A\n\x7d"

/-- The line of `c2Schema` the counterexample is about. -/
def c2Line : List Nat := str "bs B[] @relation(fields: [x], references: [y])"

/-- A schema with a genuine junction table `PS` and an array-typed field
`sups PS[]` that additionally carries an explicit `fields: [...]` list. -/
def c3Schema : List Nat :=
  str "model P \x7b\n  sups PS[] @relation(fields: [q], references: [r])\n\x7d\nmodel PS \x7b\n  productId Int\n  supplierId Int\n  product P @relation(fields: [productId], references: [id])\n  supplier S2 @relation(fields: [supplierId], references: [id])\n\x7d\nmodel S2 \x7b\n  id Int @id\n\x7d"

/-- The line of `c3Schema` the counterexample is about. -/
def c3Line : List Nat := str "sups PS[] @relation(fields: [q], references: [r])"

/-- The junction table of `c3Schema`, as parsed. -/
def c3Junction : IModel :=
  IModel.mk (str "PS")
    (str "\n  productId Int\n  supplierId Int\n  product P @relation(fields: [productId], references: [id])\n  supplier S2 @relation(fields: [supplierId], references: [id])\n")
    (parseFields (str "\n  productId Int\n  supplierId Int\n  product P @relation(fields: [productId], references: [id])\n  supplier S2 @relation(fields: [supplierId], references: [id])\n"))

/-- The SQL round-trip input of claim C7. -/
def usersSql : List Nat :=
  str "CREATE TABLE users (id SERIAL PRIMARY KEY, email VARCHAR(255) UNIQUE NOT NULL);"

/-- The Prisma text `convert` produces for `usersSql`. -/
def usersExpected : List Nat :=
  str "// Auto-generated Prisma schema from SQL\n\ngenerator client \x7b\n  provider = \"prisma-client-js\"\n\x7d\n\ndatasource db \x7b\n  provider = \"postgresql\"\n  url      = env(\"DATABASE_URL\")\n\x7d\n\nmodel Users \x7b\n  id String @id @default(autoincrement())\n  email String @unique\n\x7d"

/-- The unbalanced `CREATE TABLE` input of claim C5 (no closing `);`). -/
def c5Input : List Nat := str "CREATE TABLE t (id INT"

/-! ## Helper lemmas -/

/-- Length of a `filterMap` as a count of the entries it keeps. -/
theorem length_filterMap_eq_countP {α β : Type} (f : α → Option β) :
    ∀ l : List α, (l.filterMap f).length = l.countP (fun x => (f x).isSome)
  | [] => rfl
  | x :: xs => by
    rw [List.filterMap_cons, List.countP_cons]
    cases h : f x <;>
      simp [h, length_filterMap_eq_countP f xs, Nat.add_comm]

/-- One step of the source's splitter, with both depth updates folded into
`depthStep` (the comma is neither parenthesis, so the order of the two
updates does not matter). -/
theorem splitBodyAux_cons (c : Nat) (rest : List Nat) (d : Int) (cur : List Nat) :
    splitBodyAux (c :: rest) d cur =
      if c = 44 ∧ depthStep c d = 0 then cur :: splitBodyAux rest (depthStep c d) []
      else splitBodyAux rest (depthStep c d) (cur ++ [c]) := by
  by_cases h40 : c = 40
  · subst h40; simp [splitBodyAux, depthStep]
  · by_cases h41 : c = 41
    · subst h41; simp [splitBodyAux, depthStep]
    · simp [splitBodyAux, depthStep, h40, h41]

/-- The spec split machine never returns an empty fragment list. -/
theorem specTopSplit_ne_nil : ∀ (d : Int) (body : List Nat), specTopSplit d body ≠ [] := by
  intro d body
  induction body generalizing d with
  | nil => simp [specTopSplit]
  | cons c rest ih =>
    rw [specTopSplit]
    split
    · simp
    · rcases h : specTopSplit (depthStep c d) rest with _ | ⟨p, ps⟩ <;> simp [h]

/-- `dropBlankLast` commutes with prepending a fragment when at least one
fragment follows. -/
theorem dropBlankLast_cons (cur : List Nat) (l : List (List Nat)) (h : l ≠ []) :
    dropBlankLast (cur :: l) = cur :: dropBlankLast l := by
  rcases l with _ | ⟨x, xs⟩
  · exact absurd rfl h
  · unfold dropBlankLast
    simp only [List.getLastD_cons]
    split <;> simp [List.dropLast]

/-- `consFirst` with an empty prefix is the identity on non-empty splits. -/
theorem consFirst_nil (l : List (List Nat)) (h : l ≠ []) : consFirst [] l = l := by
  rcases l with _ | ⟨p, ps⟩
  · exact absurd rfl h
  · simp [consFirst]

/-- The accumulator loop of the source's splitter refines the spec split
machine, up to dropping a blank final fragment. -/
theorem splitBodyAux_eq :
    ∀ (body : List Nat) (d : Int) (cur : List Nat),
      splitBodyAux body d cur = dropBlankLast (consFirst cur (specTopSplit d body)) := by
  intro body
  induction body with
  | nil =>
    intro d cur
    show (if (trimStr cur).isEmpty then ([] : List (List Nat)) else [cur]) = _
    rw [specTopSplit]
    show _ = dropBlankLast [cur ++ []]
    rw [List.append_nil]
    unfold dropBlankLast
    simp [List.getLastD, List.dropLast]
  | cons c rest ih =>
    intro d cur
    rw [splitBodyAux_cons, specTopSplit]
    by_cases hcd : c = 44 ∧ d = 0
    · have hstep : depthStep c d = d := by
        rcases hcd with ⟨h1, _⟩; subst h1; simp [depthStep]
      rw [if_pos (by rw [hstep]; exact hcd), if_pos hcd]
      have hne := specTopSplit_ne_nil d rest
      rw [hstep, ih d [], consFirst_nil _ hne]
      have hcf : consFirst cur ([] :: specTopSplit d rest) = cur :: specTopSplit d rest := by
        simp [consFirst]
      rw [hcf, dropBlankLast_cons _ _ hne]
    · have hcond : ¬(c = 44 ∧ depthStep c d = 0) := by
        rintro ⟨h1, h2⟩
        apply hcd
        refine ⟨h1, ?_⟩
        subst h1
        simpa [depthStep] using h2
      rw [if_neg hcond, if_neg hcd]
      obtain ⟨p, ps, hps⟩ : ∃ p ps, specTopSplit (depthStep c d) rest = p :: ps := by
        rcases h : specTopSplit (depthStep c d) rest with _ | ⟨p, ps⟩
        · exact absurd h (specTopSplit_ne_nil _ rest)
        · exact ⟨p, ps, rfl⟩
      rw [ih (depthStep c d) (cur ++ [c]), hps]
      simp [consFirst, List.append_assoc]

/-- `joinWith` on a split with at least two fragments. -/
theorem joinWith_cons (sep p : List Nat) (ps : List (List Nat)) (h : ps ≠ []) :
    joinWith sep (p :: ps) = p ++ sep ++ joinWith sep ps := by
  rcases ps with _ | ⟨q, qs⟩
  · exact absurd rfl h
  · rfl

/-- Joining the spec split with commas reconstructs the body. -/
theorem joinWith_specTopSplit :
    ∀ (body : List Nat) (d : Int), joinWith [44] (specTopSplit d body) = body := by
  intro body
  induction body with
  | nil => intro d; rfl
  | cons c rest ih =>
    intro d
    rw [specTopSplit]
    by_cases hcd : c = 44 ∧ d = 0
    · rw [if_pos hcd]
      rw [joinWith_cons _ _ _ (specTopSplit_ne_nil d rest)]
      simp [ih d, hcd.1]
    · rw [if_neg hcd]
      obtain ⟨p, ps, hps⟩ : ∃ p ps, specTopSplit (depthStep c d) rest = p :: ps := by
        rcases h : specTopSplit (depthStep c d) rest with _ | ⟨p, ps⟩
        · exact absurd h (specTopSplit_ne_nil _ rest)
        · exact ⟨p, ps, rfl⟩
      rw [hps]
      have hjoin := ih (depthStep c d)
      rw [hps] at hjoin
      rcases ps with _ | ⟨q, qs⟩
      · simpa [joinWith] using hjoin
      · rw [joinWith_cons _ _ _ (by simp)] at hjoin
        rw [joinWith_cons _ _ _ (by simp)]
        simpa [List.cons_append] using hjoin

/-- C9: the body splitter is the spec's depth-counting machine.  It equals
the direct split at commas observed at parenthesis depth 0 (up to the
source's one extra rule of dropping a blank final fragment), the fragments
joined with commas reconstruct the body, and a parenthesized type
parameter list such as in `a DECIMAL(10,2), b INT` is never split across
two fragments. -/
theorem C9_split_at_top_level_commas :
    (∀ body : List Nat,
      splitTableBody body = dropBlankLast (specTopSplit 0 body) ∧
      joinWith [44] (specTopSplit 0 body) = body) ∧
    splitTableBody (str "a DECIMAL(10,2), b INT") =
      [str "a DECIMAL(10,2)", str " b INT"] := by
  refine ⟨fun body => ⟨?_, joinWith_specTopSplit body 0⟩, by decide⟩
  rw [splitTableBody, splitBodyAux_eq body 0 [],
    consFirst_nil _ (specTopSplit_ne_nil 0 body)]

/-- The override block's cardinality: many-to-one exactly when the
attributes contain `@relation` together with a non-empty `fields: [...]`
capture; otherwise the pass-1 cardinality survives. -/
theorem applyRelationOverride_fst (st1 : RelType × List Nat)
    (fieldName attributes : List Nat) :
    (applyRelationOverride st1 fieldName attributes).1 =
      if containsSub attributes (str "@relation") &&
          (bracketCapture (str "fields:") attributes).isSome then RelType.manyToOne
      else st1.1 := by
  unfold applyRelationOverride
  cases hrel : containsSub attributes (str "@relation")
  · simp [hrel]
  · cases hfm : bracketCapture (str "fields:") attributes <;> simp [hrel, hfm]

/-- An emitted connection stores the overridden pass-1 cardinality. -/
theorem relationForLine_relationType (mn : List Nat) (ji : JunctionInfo)
    (ms : List IModel) (line : List Nat) (r : Connection)
    (fieldName base : List Nat) (isArr : Bool) (rawTail : List Nat)
    (hpl : parseFieldLine line = some (fieldName, base, isArr, rawTail))
    (hr : relationForLine mn ji ms line = some r) :
    r.relationType =
      (applyRelationOverride
        (defaultRelAndLabel mn ji ms fieldName base
          (rawTail.dropWhile isSpaceCode) isArr)
        fieldName (rawTail.dropWhile isSpaceCode)).1 := by
  unfold relationForLine at hr
  rw [hpl] at hr
  cases hrel : containsSub (rawTail.dropWhile isSpaceCode) (str "@relation") <;>
    cases hprim : isPrimitiveType base <;>
      simp only [hrel, hprim, Bool.false_or, Bool.true_or, Bool.or_false, Bool.or_true,
        Bool.not_true, Bool.not_false, if_true, if_false, ite_true, ite_false,
        Bool.false_eq_true, Bool.true_eq_false] at hr
  · have hx := Option.some.inj hr
    subst hx
    rfl
  · exact absurd hr (by simp)
  · have hx := Option.some.inj hr
    subst hx
    rfl
  · exact absurd hr (by simp)

/-- C1 (counterexample): a model whose two explicit relation declarations
both reference the same model `User` — so its relation-bearing fields
reference only one distinct other model — is nevertheless classified as a
junction table (the classifier counts referenced models with
multiplicity), refuting the claimed "if and only if".  The map lists, per
parsed model of `c1Schema`, the classifier verdict, whether at least two
distinct models are referenced, and whether at least two fields are
flagged `isForeignKey`. -/
theorem C1_counterexample :
    ((allModelsOf c1Schema).map (fun m =>
      ((isJunctionTable m).isJunction,
        decide (2 ≤ (distinctRefModels m.body).length),
        decide (2 ≤ m.fields.countP (·.isForeignKey))))) =
      [(true, false, true), (false, false, false)] := by decide

/-- C1 (amended): a parsed model is classified as a junction table iff it
has at least two fields flagged `isForeignKey` AND at least two of its
body lines carry an explicit `@relation(fields:` declaration with a
non-scalar declared type — counted with multiplicity, the referenced
models need not be distinct. -/
theorem C1_junction_classification (m : IModel) :
    (isJunctionTable m).isJunction =
      (decide (2 ≤ m.fields.countP (·.isForeignKey)) &&
        decide (2 ≤ junctionLineCount m.body)) := by
  unfold isJunctionTable
  dsimp only
  split
  · rename_i h
    have hlen : (relatedRefs m.body).length = junctionLineCount m.body := by
      unfold relatedRefs junctionLineCount
      rw [length_filterMap_eq_countP]
      congr 1
      funext l
      cases hj : junctionRefOf l
      · simp [hj]
      · rename_i t
        by_cases hp : isPrimitiveType t <;> simp [hj, hp]
    have hfk : 2 ≤ m.fields.countP (·.isForeignKey) := by
      rwa [List.countP_eq_length_filter]
    simp [hlen, hfk]
  · rename_i h
    have hfk : ¬2 ≤ m.fields.countP (·.isForeignKey) := by
      rwa [List.countP_eq_length_filter]
    simp [hfk]

/-- C2 (counterexample): in the junction-free schema `c2Schema`, the
relation-bearing field `bs B[]` has an array-typed target yet its emitted
cardinality is many-to-one, not one-to-many, because the field also
carries an explicit `@relation(fields: [...])` list and the late override
wins — refuting the claim that an array-typed target yields OneToMany
even with such a list. -/
theorem C2_counterexample :
    ((allModelsOf c2Schema).map (fun m => (isJunctionTable m).isJunction)) =
        [false, false] ∧
    parseFieldLine c2Line =
        some (str "bs", str "B", true, str " @relation(fields: [x], references: [y])") ∧
    (prismaParse c2Schema).connections.map (fun c => (c.name, c.relationType)) =
        [(str "bs", RelType.manyToOne), (str "a", RelType.oneToOne)] := by
  refine ⟨by decide, by decide, by decide⟩

/-- C2 (amended): in a schema with no junction table, the cardinality
emitted for a relation-bearing field is decided by local syntax as
follows: many-to-one when the attributes contain `@relation` with a
non-empty `fields: [...]` capture (this override beats the array rule);
otherwise one-to-many for an array-typed target; otherwise many-to-one
when the attributes contain the substring `fields:`; otherwise
one-to-one. -/
theorem C2_cardinality_junction_free (modelName : List Nat)
    (allModels : List IModel) (line : List Nat) (r : Connection)
    (hnoj : ∀ m ∈ allModels, (isJunctionTable m).isJunction = false)
    (hr : relationForLine modelName (junctionInfoFor modelName allModels)
      allModels line = some r) :
    r.relationType = c2Cardinality line := by
  cases hpl : parseFieldLine line with
  | none =>
    unfold relationForLine at hr
    rw [hpl] at hr
    exact absurd hr (by simp)
  | some q =>
    obtain ⟨fieldName, base, isArr, rawTail⟩ := q
    rw [relationForLine_relationType modelName _ allModels line r fieldName base
      isArr rawTail hpl hr]
    rw [applyRelationOverride_fst]
    have hji : (junctionInfoFor modelName allModels).isJunction = false := by
      unfold junctionInfoFor
      cases hf : allModels.find? (fun m => m.name == modelName) with
      | none => rfl
      | some m => exact hnoj m (List.mem_of_find?_eq_some hf)
    have hdef : (defaultRelAndLabel modelName (junctionInfoFor modelName allModels)
        allModels fieldName base (rawTail.dropWhile isSpaceCode) isArr).1 =
        (if isArr then RelType.oneToMany
          else if containsSub (rawTail.dropWhile isSpaceCode) (str "fields:") then
            RelType.manyToOne
          else RelType.oneToOne) := by
      unfold defaultRelAndLabel
      rw [hji]
      cases isArr
      · cases hc : containsSub (rawTail.dropWhile isSpaceCode) (str "fields:") <;>
          simp [hc]
      · cases hf2 : allModels.find? (fun m => m.name == base) with
        | none => simp [hf2]
        | some tm =>
          have htm := hnoj tm (List.mem_of_find?_eq_some hf2)
          simp [hf2, htm]
    rw [hdef]
    unfold c2Cardinality
    rw [hpl]

/-- C2 (witness): the amended theorem applied to the field line `xs Y[]`
of a model `M` in an empty model universe. -/
theorem C2_witness :
    (Connection.mk (str "M-xs-source") (str "Y-target") (str "xs")
      (str "xs (1:N)") [] [] RelType.oneToMany).relationType =
      c2Cardinality (str "xs Y[]") :=
  C2_cardinality_junction_free (str "M") [] (str "xs Y[]") _
    (by simp) (by decide)

/-- C3 (counterexample): in `c3Schema`, the field `sups PS[]` is
array-typed with target `PS`, and `PS` is classified as a junction table;
yet the emitted cardinality for that field is many-to-one, not
many-to-many, because the field carries an explicit
`@relation(fields: [...])` list and the late override wins. -/
theorem C3_counterexample :
    (isJunctionTable c3Junction).isJunction = true ∧
    (allModelsOf c3Schema).find? (fun m => m.name == str "PS") = some c3Junction ∧
    parseFieldLine c3Line =
        some (str "sups", str "PS", true, str " @relation(fields: [q], references: [r])") ∧
    (prismaParse c3Schema).connections.map (fun c => (c.name, c.relationType)) =
        [(str "sups", RelType.manyToOne), (str "product", RelType.manyToOne),
          (str "supplier", RelType.manyToOne)] := by
  refine ⟨by decide, by decide, by decide, by decide⟩

/-- C3 (amended): a relation emitted for an array-typed field whose target
model is classified as a junction table has cardinality many-to-many —
provided the field's attributes do not carry `@relation` together with a
non-empty `fields: [...]` capture, in which case the late override makes
it many-to-one instead. -/
theorem C3_array_of_junction (modelName : List Nat) (ji : JunctionInfo)
    (allModels : List IModel) (line : List Nat) (r : Connection)
    (fieldName base rawTail : List Nat) (tm : IModel)
    (hpl : parseFieldLine line = some (fieldName, base, true, rawTail))
    (hfind : allModels.find? (fun m => m.name == base) = some tm)
    (hjunc : (isJunctionTable tm).isJunction = true)
    (hnov : (containsSub (rawTail.dropWhile isSpaceCode) (str "@relation") &&
      (bracketCapture (str "fields:") (rawTail.dropWhile isSpaceCode)).isSome) = false)
    (hr : relationForLine modelName ji allModels line = some r) :
    r.relationType = RelType.manyToMany := by
  rw [relationForLine_relationType modelName ji allModels line r fieldName base
    true rawTail hpl hr]
  rw [applyRelationOverride_fst, hnov]
  unfold defaultRelAndLabel
  cases hj1 : ji.isJunction && ji.relatedModels.contains base <;>
    simp [hj1, hfind, hjunc]

/-- C3 (witness): the amended theorem applied to the field line
`sups PS[]` against the parsed models of `c3Schema`, whose model `PS` is a
junction table. -/
theorem C3_witness :
    (Connection.mk (str "P-sups-source") (str "PS-target") (str "sups")
      (str "sups (M:N)") [] [] RelType.manyToMany).relationType =
      RelType.manyToMany :=
  C3_array_of_junction (str "P") ⟨false, []⟩ (allModelsOf c3Schema)
    (str "sups PS[]") _ (str "sups") (str "PS") [] c3Junction
    (by decide) (by decide) (by decide) (by decide) (by decide)

/-- C4: the dispatcher rejects an unsupported extension first, regardless
of content, and only then rejects blank content; in particular the
extension check precedes the emptiness check. -/
theorem C4_dispatcher_order (jc : List Nat → Except (List Nat) (List Nat))
    (content fileName : List Nat) :
    (isSupportedFile fileName = false →
      convertToPrisma jc content fileName =
        ⟨false, none,
          some (str "Unsupported file type. Supported formats: prisma, sql, psql, json"),
          none⟩) ∧
    (isSupportedFile fileName = true → (trimStr content).isEmpty = true →
      convertToPrisma jc content fileName =
        ⟨false, none,
          some (str "File is empty. Please provide a valid schema file."), none⟩) := by
  constructor
  · intro h
    unfold convertToPrisma
    simp [h]
  · intro h1 h2
    unfold convertToPrisma
    simp [h1, h2]

/-- C4 (witness): an empty `.txt` file is rejected as unsupported, and a
zero-length `.sql` file is rejected as empty. -/
theorem C4_witness :
    convertToPrisma jc0 [] (str "a.txt") =
      ⟨false, none,
        some (str "Unsupported file type. Supported formats: prisma, sql, psql, json"),
        none⟩ ∧
    convertToPrisma jc0 [] (str "a.sql") =
      ⟨false, none,
        some (str "File is empty. Please provide a valid schema file."), none⟩ :=
  ⟨(C4_dispatcher_order jc0 [] (str "a.txt")).1 (by decide),
    (C4_dispatcher_order jc0 [] (str "a.sql")).2 (by decide) (by decide)⟩

/-- C5 (counterexample): an unbalanced `CREATE TABLE` (missing `);`) does
not produce a malformed-source failure: the table pattern silently fails
to match, the generated schema has no model or enum, and the returned
failure is the no-definitions validation error — whose message is not an
SQL conversion (malformed-source) message. -/
theorem C5_counterexample :
    convertToPrisma jc0 c5Input (str "schema.sql") =
      ⟨false, none,
        some (str "Converted schema validation failed: Schema must contain at least one model or enum definition"),
        some (str "sql")⟩ ∧
    containsSub
      (str "Converted schema validation failed: Schema must contain at least one model or enum definition")
      (str "SQL conversion error") = false := by
  refine ⟨by decide, by decide⟩

/-- C5 (amended): for SQL input whose `CREATE TABLE` statement lacks its
closing `);`, `convert` returns the NoDefinitionsFound-style failure
("Schema must contain at least one model or enum definition") — the
unmatchable statement is skipped silently rather than reported as
MalformedSource — and this holds for every value of the external JSON
converter parameter. -/
theorem C5_unbalanced_sql_no_definitions
    (jc : List Nat → Except (List Nat) (List Nat)) :
    convertToPrisma jc c5Input (str "schema.sql") =
      ⟨false, none,
        some (str "Converted schema validation failed: Schema must contain at least one model or enum definition"),
        some (str "sql")⟩ := by
  rfl

/-- C6: a parsed field is flagged `isPrimaryKey` iff its attributes carry
an explicit `@id` marker, or it is named exactly `id` (case-sensitively)
with a scalar type, or its name contains `id` case-insensitively and its
attributes carry an explicit `@unique` marker; in particular `id Int @id`
is a primary key and `userId Int` is a non-primary foreign key. -/
theorem C6_primary_key_rule :
    (∀ (line : List Nat) (fld : PField), classifyField line = some fld →
      fld.isPrimaryKey =
        (specIdMarker line || specNamedId line || specUniqueId line)) ∧
    parseFields (str "id Int @id\nuserId Int") =
      [PField.mk (str "id") (str "Int") false false false true,
        PField.mk (str "userId") (str "Int") false true false false] := by
  constructor
  · intro line fld h
    unfold classifyField at h
    by_cases hc : (lpre (str "//") line || lpre (str "@@") line) = true
    · rw [if_pos hc] at h
      exact absurd h (by simp)
    · rw [if_neg hc] at h
      cases hpl : parseFieldLine line with
      | none =>
        rw [hpl] at h
        exact absurd h (by simp)
      | some q =>
        obtain ⟨fieldName, base, isArr, rawTail⟩ := q
        rw [hpl] at h
        have hx := Option.some.inj h
        subst hx
        unfold specIdMarker specNamedId specUniqueId attrsOfLine nameOfLine typeStrOfLine
        rw [hpl]
  · decide

/-- C6 (witness): the rule applied to the concrete line `userId Int`. -/
theorem C6_witness :
    (PField.mk (str "userId") (str "Int") false true false false).isPrimaryKey =
      (specIdMarker (str "userId Int") || specNamedId (str "userId Int") ||
        specUniqueId (str "userId Int")) :=
  C6_primary_key_rule.1 (str "userId Int") _ (by decide)

/-- C7: converting the `users` DDL through a `.sql` file name succeeds,
produces exactly the expected Prisma text, the parsed SQL descriptor has
the two columns in order with `email` unique and non-nullable, and the
parsed result has exactly one model `Users` with fields `[id, email]` in
order and `id` flagged as primary key. -/
theorem C7_sql_round_trip (jc : List Nat → Except (List Nat) (List Nat)) :
    convertToPrisma jc usersSql (str "users.sql") =
      ⟨true, some usersExpected, none, some (str "sql")⟩ ∧
    parseSqlTables usersSql =
      [SqlTable.mk (str "users")
        [Column.mk (str "id") (str "SERIAL") false true false none,
          Column.mk (str "email") (str "VARCHAR(255)") false false true none] []] ∧
    prismaParse usersExpected =
      ParsedSchema.mk
        [PModel.mk (str "Users")
          [PField.mk (str "id") (str "String") false false false true,
            PField.mk (str "email") (str "String") false false false false] false]
        [] [] := by
  refine ⟨by rfl, by decide, by decide⟩

/-- One ASCII code point uppers equally whenever it lowers equally. -/
theorem upperCode_congr (a b : Nat) (h : lowerCode a = lowerCode b) :
    upperCode a = upperCode b := by
  unfold lowerCode upperCode isUpperCode isLowerCode at *
  simp only [Bool.and_eq_true, decide_eq_true_eq] at *
  split_ifs at * <;> omega

/-- Strings agreeing after lowering agree after uppering. -/
theorem upperStr_congr : ∀ s t : List Nat, lowerStr s = lowerStr t →
    upperStr s = upperStr t := by
  intro s
  induction s with
  | nil =>
    intro t h
    cases t with
    | nil => rfl
    | cons b bs => simp [lowerStr] at h
  | cons a as ih =>
    intro t h
    cases t with
    | nil => simp [lowerStr] at h
    | cons b bs =>
      simp only [lowerStr, List.map_cons, List.cons.injEq] at h
      simp only [upperStr, List.map_cons, List.cons.injEq]
      exact ⟨upperCode_congr a b h.1, by
        have := ih bs (by simpa [lowerStr] using h.2)
        simpa [upperStr] using this⟩

/-- A defaulted lookup lands among the table's values or the default. -/
theorem lookupD_mem_kinds (tbl : List (List Nat × List Nat)) (k d : List Nat)
    (htbl : ∀ kv ∈ tbl, canonicalKinds.contains kv.2 = true)
    (hd : canonicalKinds.contains d = true) :
    canonicalKinds.contains (lookupD tbl k d) = true := by
  induction tbl with
  | nil => exact hd
  | cons kv rest ih =>
    unfold lookupD
    split
    · exact htbl kv (by simp)
    · exact ih fun x hx => htbl x (by simp [hx])

/-- A defaulted lookup whose key is absent returns the default. -/
theorem lookupD_not_mem (tbl : List (List Nat × List Nat)) (k d : List Nat)
    (h : ∀ kv ∈ tbl, kv.1 ≠ k) : lookupD tbl k d = d := by
  induction tbl with
  | nil => rfl
  | cons kv rest ih =>
    unfold lookupD
    rw [if_neg (h kv (by simp))]
    exact ih fun x hx => h x (by simp [hx])

/-- A defaulted lookup is the own-key lookup with a default. -/
theorem lookupD_eq_lookupOpt (tbl : List (List Nat × List Nat)) (k d : List Nat) :
    lookupD tbl k d = (lookupOpt tbl k).getD d := by
  induction tbl with
  | nil => rfl
  | cons kv rest ih =>
    obtain ⟨a, b⟩ := kv
    unfold lookupD lookupOpt
    split <;> simp [ih]

/-- An own-key lookup whose key is absent returns nothing. -/
theorem lookupOpt_not_mem (tbl : List (List Nat × List Nat)) (k : List Nat)
    (h : ∀ kv ∈ tbl, kv.1 ≠ k) : lookupOpt tbl k = none := by
  induction tbl with
  | nil => rfl
  | cons kv rest ih =>
    obtain ⟨a, b⟩ := kv
    unfold lookupOpt
    rw [if_neg (h (a, b) (by simp))]
    exact ih fun x hx => h x (by simp [hx])

/-- A successful own-key lookup returns one of the table's values. -/
theorem lookupOpt_mem_values (tbl : List (List Nat × List Nat)) (k v : List Nat)
    (h : lookupOpt tbl k = some v) : ∃ kv ∈ tbl, kv.2 = v := by
  induction tbl with
  | nil => exact absurd h (by simp [lookupOpt])
  | cons kv rest ih =>
    obtain ⟨a, b⟩ := kv
    unfold lookupOpt at h
    by_cases hak : a = k
    · rw [if_pos hak] at h
      exact ⟨(a, b), by simp, Option.some.inj h⟩
    · rw [if_neg hak] at h
      obtain ⟨x, hx, hv⟩ := ih h
      exact ⟨x, by simp [hx], hv⟩

/-- The uppercased pre-parenthesis key of the SQL mapper contains no
lowercase letter. -/
theorem sqlTypeKey_lower_free (s : List Nat) :
    ∀ c ∈ sqlTypeKey s, isLowerCode c = false := by
  intro c hc
  unfold sqlTypeKey at hc
  have hc2 : c ∈ upperStr s := (List.takeWhile_prefix _).subset hc
  unfold upperStr at hc2
  obtain ⟨n, _, rfl⟩ := List.mem_map.mp hc2
  unfold upperCode
  split_ifs with h
  · have h2 : 97 ≤ n ∧ n ≤ 122 := by simpa [isLowerCode] using h
    have h3 : ¬97 ≤ n - 32 := by omega
    simp [isLowerCode, h3]
  · simpa using h

/-- The SQL mapper's key never collides with a reachable
`Object.prototype` member name: those names contain lowercase letters,
the key does not. -/
theorem sqlTypeKey_ne_proto (s : List Nat) :
    sqlTypeKey s ≠ str "constructor" ∧ sqlTypeKey s ≠ str "__proto__" := by
  constructor <;> intro h
  · have h99 : (99 : Nat) ∈ sqlTypeKey s := by rw [h]; decide
    exact absurd (sqlTypeKey_lower_free s 99 h99) (by decide)
  · have h112 : (112 : Nat) ∈ sqlTypeKey s := by rw [h]; decide
    exact absurd (sqlTypeKey_lower_free s 112 h112) (by decide)

/-- The prototype-chain branch of the SQL mapper is unreachable: the
property-access reading always returns the string-valued reading. -/
theorem mapSqlTypeToPrismaJs_eq (s : List Nat) :
    mapSqlTypeToPrismaJs s = MapperResult.text (mapSqlTypeToPrisma s) := by
  unfold mapSqlTypeToPrismaJs jsLookup mapSqlTypeToPrisma
  rw [lookupD_eq_lookupOpt]
  cases h : lookupOpt sqlTypeMap (sqlTypeKey s) with
  | none =>
    rw [if_neg (by
      rintro (hk | hk)
      · exact (sqlTypeKey_ne_proto s).1 hk
      · exact (sqlTypeKey_ne_proto s).2 hk)]
    simp
  | some v => simp

/-- C8 (counterexample): the token `constructor` is absent from the JSON
mapping table, yet it does not map to the Text kind: the lowercased
property access reaches the inherited `Object.prototype` member, a truthy
non-string, so the `|| 'String'` fallback never fires; likewise
`__proto__`.  This refutes the claimed totality and unknown-token
fallback of the per-format mapping. -/
theorem C8_counterexample :
    jsonTypeMap.all (fun kv => !(kv.1 == lowerStr (str "constructor"))) = true ∧
    mapJsonTypeToPrisma (str "constructor") =
      MapperResult.protoLeak (str "constructor") ∧
    (mapJsonTypeToPrisma (str "constructor")).isCanonicalText = false ∧
    mapJsonTypeToPrisma (str "__proto__") =
      MapperResult.protoLeak (str "__proto__") := by
  refine ⟨by decide, by decide, by decide, by decide⟩

/-- C8 (amended): the SQL mapper is total into the canonical scalar
kinds, case-insensitive, and sends every absent key to Text, its
prototype-chain branch being unreachable; the JSON mapper is
case-insensitive, and is total into the canonical kinds with Text
fallback for unknown tokens except exactly those whose lowercased form is
an inherited `Object.prototype` member name (`constructor`,
`__proto__`), for which the inherited non-string member leaks instead. -/
theorem C8_type_mapping_proto_leak :
    (∀ s : List Nat,
      mapSqlTypeToPrismaJs s = MapperResult.text (mapSqlTypeToPrisma s)) ∧
    (∀ s : List Nat, canonicalKinds.contains (mapSqlTypeToPrisma s) = true) ∧
    (∀ s t : List Nat, lowerStr s = lowerStr t →
      mapSqlTypeToPrisma s = mapSqlTypeToPrisma t ∧
      mapJsonTypeToPrisma s = mapJsonTypeToPrisma t) ∧
    (∀ s : List Nat, (∀ kv ∈ sqlTypeMap, kv.1 ≠ sqlTypeKey s) →
      mapSqlTypeToPrisma s = str "String") ∧
    (∀ s : List Nat, lowerStr s ≠ str "constructor" →
      lowerStr s ≠ str "__proto__" →
      (mapJsonTypeToPrisma s).isCanonicalText = true) ∧
    (∀ s : List Nat, (∀ kv ∈ jsonTypeMap, kv.1 ≠ lowerStr s) →
      lowerStr s ≠ str "constructor" → lowerStr s ≠ str "__proto__" →
      mapJsonTypeToPrisma s = MapperResult.text (str "String")) := by
  refine ⟨mapSqlTypeToPrismaJs_eq, ?_, ?_, ?_, ?_, ?_⟩
  · intro s
    exact lookupD_mem_kinds _ _ _ (by decide) (by decide)
  · intro s t h
    have hemp : s.isEmpty = t.isEmpty := by
      cases s <;> cases t <;> simp_all [lowerStr]
    refine ⟨?_, ?_⟩
    · unfold mapSqlTypeToPrisma sqlTypeKey
      rw [upperStr_congr s t h]
    · unfold mapJsonTypeToPrisma
      rw [hemp, h]
  · intro s h
    unfold mapSqlTypeToPrisma
    exact lookupD_not_mem _ _ _ h
  · intro s h1 h2
    unfold mapJsonTypeToPrisma
    split
    · decide
    · unfold jsLookup
      cases hl : lookupOpt jsonTypeMap (lowerStr s) with
      | some v =>
        obtain ⟨kv, hkv, hv⟩ := lookupOpt_mem_values _ _ _ hl
        subst hv
        have hall : ∀ x ∈ jsonTypeMap,
            MapperResult.isCanonicalText (.text x.2) = true := by decide
        exact hall kv hkv
      | none =>
        rw [if_neg (by rintro (hk | hk); exacts [h1 hk, h2 hk])]
        decide
  · intro s h h1 h2
    unfold mapJsonTypeToPrisma
    split
    · rfl
    · unfold jsLookup
      rw [lookupOpt_not_mem _ _ h]
      rw [if_neg (by rintro (hk | hk); exacts [h1 hk, h2 hk])]

/-- C8 (witness): case-insensitivity at `VarChar(255)` vs `VARCHAR(255)`,
and Text fallback for the unknown, non-prototype tokens `SERIAL` (SQL)
and `uuid` (JSON). -/
theorem C8_witness :
    (mapSqlTypeToPrisma (str "VarChar(255)") = mapSqlTypeToPrisma (str "VARCHAR(255)") ∧
      mapJsonTypeToPrisma (str "VarChar(255)") = mapJsonTypeToPrisma (str "VARCHAR(255)")) ∧
    mapSqlTypeToPrisma (str "SERIAL") = str "String" ∧
    (mapJsonTypeToPrisma (str "uuid")).isCanonicalText = true ∧
    mapJsonTypeToPrisma (str "uuid") = MapperResult.text (str "String") :=
  ⟨C8_type_mapping_proto_leak.2.2.1 _ _ (by decide),
    C8_type_mapping_proto_leak.2.2.2.1 _ (by decide),
    C8_type_mapping_proto_leak.2.2.2.2.1 _ (by decide) (by decide),
    C8_type_mapping_proto_leak.2.2.2.2.2 _ (by decide) (by decide) (by decide)⟩

/-- C10: a column whose constraint text matches the column-level
`PRIMARY KEY` pattern is parsed as non-nullable, its emitted attribute
list is exactly `@id @default(autoincrement())` — any `UNIQUE` marker or
`DEFAULT` clause on the same column is ignored — and its emitted field
line carries the mapped type with no `?` marker. -/
theorem C10_primary_key_column (name dtype constraints : List Nat)
    (hpk : hasTokSeq [str "primary", str "key"] constraints = true) :
    (mkColumn name dtype constraints).nullable = false ∧
    colAttributes (mkColumn name dtype constraints) =
      [str "@id @default(autoincrement())"] ∧
    colFieldLine (mkColumn name dtype constraints) =
      str "  " ++ name ++ str " " ++ mapSqlTypeToPrisma dtype ++
        str " @id @default(autoincrement())" := by
  have hattrs : colAttributes (mkColumn name dtype constraints) =
      [str "@id @default(autoincrement())"] := by
    unfold mkColumn colAttributes
    simp [hpk]
  refine ⟨by unfold mkColumn; simp [hpk], hattrs, ?_⟩
  simp only [colFieldLine]
  rw [hattrs]
  simp [mkColumn, hpk, joinWith, List.append_assoc]
  decide

/-- C10 (witness): the rule applied to a column that also declares
`UNIQUE` and a `DEFAULT` clause, both of which are ignored. -/
theorem C10_witness :
    (mkColumn (str "id") (str "SERIAL") (str "PRIMARY KEY UNIQUE DEFAULT 5")).nullable = false ∧
    colAttributes (mkColumn (str "id") (str "SERIAL") (str "PRIMARY KEY UNIQUE DEFAULT 5")) =
      [str "@id @default(autoincrement())"] ∧
    colFieldLine (mkColumn (str "id") (str "SERIAL") (str "PRIMARY KEY UNIQUE DEFAULT 5")) =
      str "  " ++ str "id" ++ str " " ++ mapSqlTypeToPrisma (str "SERIAL") ++
        str " @id @default(autoincrement())" :=
  C10_primary_key_column (str "id") (str "SERIAL")
    (str "PRIMARY KEY UNIQUE DEFAULT 5") (by decide)
